import Mathlib

/-!
Verification of the e3-core sources against their specification.

Two source files are embedded:

* `src/src/e3/python/pypiscript.py` — the script `main` that builds local
  wheels, computes a PyPI closure and copies/writes the filtered results.
  External collaborators (the `re.search` regex engine, the
  `pkg_resources.Requirement` parser and the `PyPIClosure` resolver outputs)
  are passed as parameters of the embedding.
* `src/e3/anod/helper.py` — `text_replace` and `gplize.remove_paragraph`,
  embedded as pure functions over the list of lines of the file, with the
  regex matchers (`re.subn`, `re.match`) passed as parameters.

The `PyPIClosure` resolver itself (`e3/python/pypi.py`) is not part of the
sources; it is modelled from the specification (see the `Resolver` section).
-/

namespace E3

/-! ## String helpers for the pypiscript embedding -/

/-- Characters after the last `/` of a path: `os.path.basename` for POSIX
paths, as used on the file names yielded by `file_closure()`. -/
def basenameChars (l : List Char) : List Char :=
  (l.reverse.takeWhile (fun c => c ≠ '/')).reverse

/-- Embedding of `os.path.basename(f).split("-")[0].replace("_", "-")`
(pypiscript.py line 136): the package name derived from a wheel file name. -/
def pkgNameOfFile (f : String) : String :=
  String.mk (((basenameChars f.toList).takeWhile (fun c => c ≠ '-')).map
    (fun c => if c = '_' then '-' else c))

/-- Split a character list at the first `#`: returns the characters before it
and, when a `#` is present, the characters after it.  This is Python's
`url.split("#", 1)` restricted to the two pieces the script uses. -/
def splitFirstHash : List Char → List Char × Option (List Char)
  | [] => ([], none)
  | c :: rest =>
    if c = '#' then ([], some rest)
    else
      let p := splitFirstHash rest
      (c :: p.1, p.2)

/-- Embedding of pypiscript.py lines 92–95: from a configured wheel URL,
the source checkout URL and the revision (`master` when no `#` appears). -/
def wheelUrlRev (url : String) : String × String :=
  match splitFirstHash url.toList with
  | (u, some r) => (String.mk u, String.mk r)
  | (u, none) => (String.mk u, "master")

/-! ## The script model (pypiscript.py `main`) -/

/-- The recognized keys of the YAML configuration file.  `wheels` is an
ordered association list (Python dict iteration order); `none` for an
optional key models the key being absent from the mapping. -/
structure ScriptConfig where
  wheels : List (String × String)
  requirements : List String
  discard_from_closure : Option String
  frozen_requirement_file : Option String
  platforms : List String
deriving DecidableEq

/-- Observable outputs of a successful run of `main`:
the top-level requirements added to the resolver, the files copied into the
target directory (in order), the path of the frozen requirement file and the
strings written to it (one `fd.write` per element). -/
structure ScriptOutput (ρ : Type) where
  toplevelReqs : List ρ
  copiedFiles : List String
  frozenPath : String
  frozenLines : List String
deriving DecidableEq

/-- Parse a list of requirement strings, failing on the first string the
parser rejects — the evaluation of the set comprehension at pypiscript.py
lines 117–119. -/
def parseAll {ε ρ : Type} (parse : String → Except ε ρ) : List String → Except ε (List ρ)
  | [] => .ok []
  | s :: rest =>
    match parse s with
    | .error e => .error e
    | .ok r =>
      match parseAll parse rest with
      | .error e => .error e
      | .ok rs => .ok (r :: rs)

/-- The copy condition of pypiscript.py lines 137–139:
`"discard_from_closure" not in config or not re.search(config[...], pkg_name)`. -/
def keepName (search : String → String → Bool) (cfg : ScriptConfig) (name : String) : Bool :=
  match cfg.discard_from_closure with
  | none => true
  | some pat => !(search pat name)

/-- Embedding of the observable behaviour of `main` (pypiscript.py
lines 116–153), parameterized by the external collaborators:

* `parse` — `Requirement.parse` (spec §9: a single parsing function
  returning a typed requirement or an `InvalidRequirementError`, here the
  abstract error type `ε`);
* `projectName`, `reqStr` — `req.project_name` and `str(req)` on the
  abstract requirement type `ρ`;
* `search` — `re.search` on a pattern and a string;
* `fileClosure` — the file names yielded by `pypi.file_closure()`;
* `closureReqs` — the requirements yielded by `pypi.closure_as_requirements()`.

The wheel keys are parsed before the requirement strings, mirroring
`{Requirement.parse(wheel) for wheel in wheels} | {Requirement.parse(r) for r
in requirements}`; any parse failure aborts the run before any file is
copied or written. -/
def scriptRun {ε ρ : Type} (parse : String → Except ε ρ)
    (projectName reqStr : ρ → String) (search : String → String → Bool)
    (cfg : ScriptConfig) (targetDir : String)
    (fileClosure : List String) (closureReqs : List ρ) :
    Except ε (ScriptOutput ρ) :=
  match parseAll parse (cfg.wheels.map Prod.fst ++ cfg.requirements) with
  | .error e => .error e
  | .ok reqs =>
    let copied := fileClosure.foldl
      (fun acc f => if keepName search cfg (pkgNameOfFile f) then acc ++ [f] else acc) []
    let fname :=
      match cfg.frozen_requirement_file with
      | some n => n
      | none => "requirements.txt"
    let lines := closureReqs.foldl
      (fun acc r => if keepName search cfg (projectName r) then acc ++ [reqStr r ++ "\n"] else acc) []
    .ok { toplevelReqs := reqs, copiedFiles := copied,
          frozenPath := targetDir ++ "/" ++ fname, frozenLines := lines }

/-! ## `text_replace` (e3/anod/helper.py lines 237–267)

The file is embedded as its list of lines; `re.subn` is the parameter
`subn : regexp → replacement → line → (new line, count)`. -/

/-- One line through the pattern chain, in list order: the inner `for
pattern_index, (regexp, replacement) in enumerate(pattern)` loop.  Returns
the transformed line and the count recorded for each pattern. -/
def applyPatterns (subn : String → String → String → String × Nat) :
    List (String × String) → String → String × List Nat
  | [], line => (line, [])
  | p :: rest, line =>
    let r := subn p.1 p.2 line
    let q := applyPatterns subn rest r.1
    (q.1, r.2 :: q.2)

/-- Pointwise accumulation `nb_substitution[pattern_index] += count`. -/
def addCounts (a b : List Nat) : List Nat := List.zipWith (· + ·) a b

/-- The `for line in f` loop of `text_replace`: accumulates
`nb_substitution` (seeded with one `0` per pattern) and the transformed
lines written to the `StringIO` buffer. -/
def text_replace_scan (subn : String → String → String → String × Nat)
    (patterns : List (String × String)) (fileLines : List String) :
    List Nat × List String :=
  fileLines.foldl
    (fun acc line =>
      (addCounts acc.1 (applyPatterns subn patterns line).2,
       acc.2 ++ [(applyPatterns subn patterns line).1]))
    (patterns.map (fun _ => 0), ([] : List String))

/-- Embedding of `text_replace`: returns `nb_substitution` and, when at least
one substitution happened, the new file contents; `none` means the file was
never opened for writing. -/
def text_replace (subn : String → String → String → String × Nat)
    (patterns : List (String × String)) (fileLines : List String) :
    List Nat × Option (List String) :=
  let r := text_replace_scan subn patterns fileLines
  if r.1.any (fun nb => !(nb == 0)) then (r.1, some r.2) else (r.1, none)

/-- The on-disk contents of the file after `text_replace` ran. -/
def text_replace_disk (subn : String → String → String → String × Nat)
    (patterns : List (String × String)) (fileLines : List String) : List String :=
  match (text_replace subn patterns fileLines).2 with
  | some out => out
  | none => fileLines

/-! ## `gplize.remove_paragraph` (e3/anod/helper.py lines 283–351)

The begin/end regexes are the parameters `mb`/`me` (`re.match` against the
`begin` and `end` alternations).  The Python locals `comment1`/`comment2`
are `Option String`: `none` models the variable not having been assigned
yet, and writing a blank comment line while it is `none` is the
`UnboundLocalError` Python raises in that situation. -/

inductive GplError
  | endNotFound (filename : String)
  | uninitializedComment
deriving DecidableEq

structure GplState where
  out : List String
  state : Nat
  i : Nat
  comment1 : Option String
  comment2 : Option String
deriving DecidableEq

def gplInit : GplState :=
  { out := [], state := 2, i := 0, comment1 := none, comment2 := none }

/-- The blank comment line `comment1 + 74 * " " + comment2 + "\n"`. -/
def blankLine (c1 c2 : String) : String :=
  c1 ++ String.mk (List.replicate 74 ' ') ++ c2 ++ "\n"

/-- The comment-type detection at the top of the loop body: on the second
line (`i == 1`) the first two characters become `comment1`/`comment2`, and
`i` is incremented. -/
def gplDetect (st : GplState) (line : String) : GplState :=
  let st1 :=
    if st.i = 1 then
      let c := String.mk (line.toList.take 2)
      { st with comment1 := some c, comment2 := some (if c = " *" then "* " else c) }
    else st
  { st1 with i := st1.i + 1 }

/-- One iteration of the `for line in f` loop of `remove_paragraph`. -/
def gplStep (mb me : String → Bool) (st : GplState) (line : String) :
    Except GplError GplState :=
  let st2 := gplDetect st line
  if mb line then
    match st2.comment1, st2.comment2 with
    | some c1, some c2 => .ok { st2 with state := 0, out := st2.out ++ [blankLine c1 c2] }
    | _, _ => .error .uninitializedComment
  else if me line && st2.state == 0 then
    match st2.comment1, st2.comment2 with
    | some c1, some c2 => .ok { st2 with state := 1, out := st2.out ++ [blankLine c1 c2] }
    | _, _ => .error .uninitializedComment
  else
    let st3 := if st2.state = 1 then { st2 with state := 3 } else st2
    if st3.state = 0 then
      match st3.comment1, st3.comment2 with
      | some c1, some c2 => .ok { st3 with out := st3.out ++ [blankLine c1 c2] }
      | _, _ => .error .uninitializedComment
    else
      .ok { st3 with out := st3.out ++ [line] }

/-- The comment type has been detected: both `comment1` and `comment2` have
been assigned, so writing a blank comment line cannot fail. -/
def gplGood (st : GplState) : Prop :=
  st.comment1.isSome ∧ st.comment2.isSome

/-- The whole `for line in f` loop. -/
def gplRun (mb me : String → Bool) : GplState → List String → Except GplError GplState
  | st, [] => .ok st
  | st, line :: rest =>
    match gplStep mb me st line with
    | .error e => .error e
    | .ok st2 => gplRun mb me st2 rest

/-- Embedding of `remove_paragraph`: on success the new file contents, on
failure the error — `.endNotFound` is the `AnodError` raised when the scan
ends with `state == 0`. -/
def remove_paragraph (mb me : String → Bool) (filename : String)
    (lines : List String) : Except GplError (List String) :=
  match gplRun mb me gplInit lines with
  | .error e => .error e
  | .ok st => if st.state = 0 then .error (.endNotFound filename) else .ok st.out

/-- The on-disk contents after `remove_paragraph` ran: the rewrite
`open(filename, "w")` happens only after a successful scan. -/
def remove_paragraph_disk (mb me : String → Bool) (filename : String)
    (lines : List String) : List String :=
  match remove_paragraph mb me filename lines with
  | .ok out => out
  | .error _ => lines

/-! ## The Closure Resolver

Modelled from the spec: the `PyPIClosure` resolver (`e3/python/pypi.py`,
with its operations `add_wheel`/`add_local_candidate`, `add_requirement`,
`resolve`, `file_closure`, `closure_as_requirements`) is repository code
that is not among the provided sources; the definitions of this section
follow spec §3 and §4.1.  Versions are `major.minor` pairs, constraints are
lists of atomic bounds whose intersection is list union, and a Target is a
platform tag with an interpreter version. -/

abbrev Version := Nat × Nat

def versionLt (a b : Version) : Bool :=
  decide (a.1 < b.1 ∨ (a.1 = b.1 ∧ a.2 < b.2))

def versionLe (a b : Version) : Bool :=
  decide (a.1 < b.1 ∨ (a.1 = b.1 ∧ a.2 ≤ b.2))

/-- An atomic version bound of a constraint expression. -/
inductive VersionAtom
  | ge (v : Version)
  | gt (v : Version)
  | le (v : Version)
  | lt (v : Version)
  | eq (v : Version)
deriving DecidableEq

def satAtom (a : VersionAtom) (v : Version) : Bool :=
  match a with
  | .ge w => versionLe w v
  | .gt w => versionLt w v
  | .le w => versionLe v w
  | .lt w => versionLt v w
  | .eq w => v == w

/-- A version satisfies a constraint when it satisfies every collected
atomic bound (spec §3: constraints merge by intersection). -/
def satisfiesAll (atoms : List VersionAtom) (v : Version) : Bool :=
  atoms.all (fun a => satAtom a v)

/-- Spec §3: a Target is a platform tag combined with an interpreter
version (major.minor). -/
structure Target where
  platform : String
  pyVersion : Version
deriving DecidableEq

/-- Spec §3 Requirement: package name, version constraint, and an optional
environment marker restricting it to one Target. -/
structure PyReq where
  name : String
  spec : List VersionAtom
  marker : Option Target
deriving DecidableEq

def reqApplies (r : PyReq) (t : Target) : Bool :=
  match r.marker with
  | none => true
  | some t0 => t0 == t

/-- Spec §3 PackageCandidate: one distributable file.  `compatTargets =
none` models a source-only candidate compatible with every Target. -/
structure PyCandidate where
  name : String
  version : Version
  compatTargets : Option (List Target)
  deps : List PyReq
deriving DecidableEq

def candCompatible (c : PyCandidate) (t : Target) : Bool :=
  match c.compatTargets with
  | none => true
  | some l => l.contains t

/-- The resolver session state after the `add_local_candidate` /
`add_requirement` calls (spec §3 lifecycle): local candidates in
registration order, top-level requirements, and the package index. -/
structure ResolverState where
  locals : List PyCandidate
  reqs : List PyReq
  index : List PyCandidate
deriving DecidableEq

/-- Spec §4.1 `add_local_candidate`: at most one LocalOverride per name is
meaningful, last-write-wins. -/
def localOverride (s : ResolverState) (n : String) : Option PyCandidate :=
  s.locals.reverse.find? (fun c => c.name == n)

/-- Every package name mentioned anywhere in the session state. -/
def allNames (s : ResolverState) : List String :=
  (s.reqs.map (fun r => r.name) ++ (s.locals ++ s.index).map (fun c => c.name)
    ++ ((s.locals ++ s.index).map (fun c => c.deps.map (fun r => r.name))).flatten).dedup

/-- Every atomic bound mentioned anywhere in the session state. -/
def allAtoms (s : ResolverState) : List VersionAtom :=
  (s.reqs.map (fun r => r.spec)).flatten
    ++ ((s.locals ++ s.index).map (fun c => (c.deps.map (fun r => r.spec)).flatten)).flatten

/-- Per-Target resolution state: the names required so far and, per name,
the intersection of every constraint collected so far for it. -/
structure TState where
  required : List String
  constr : String → List VersionAtom

/-- Constraint intersection (spec §9: an immutable value supporting
`intersect`): union of the atomic bounds, keeping the old ones. -/
def mergeAtoms (old new : List VersionAtom) : List VersionAtom :=
  old ++ new.filter (fun a => !(old.contains a))

/-- Spec §4.1 step 1: seed the work-set with the top-level requirements
applicable to the Target. -/
def initTState (s : ResolverState) (t : Target) : TState :=
  { required := ((s.reqs.filter (fun r => reqApplies r t)).map (fun r => r.name)).dedup,
    constr := fun n =>
      ((s.reqs.filter (fun r => reqApplies r t && r.name == n)).map (fun r => r.spec)).flatten }

/-- The first registered atoms of a name: the intersection of the
constraints the top-level requirements applicable to `t` place on it. -/
def topConstr (s : ResolverState) (t : Target) (n : String) : List VersionAtom :=
  (initTState s t).constr n

/-- Spec §4.1 step 2: select the candidate for one name given its collected
constraints — a LocalOverride unconditionally when one exists, otherwise
the highest compatible version satisfying every bound (newest-wins). -/
def maxStep (acc : Option PyCandidate) (c : PyCandidate) : Option PyCandidate :=
  match acc with
  | none => some c
  | some b => if versionLt b.version c.version then some c else some b

def maxByVersion (l : List PyCandidate) : Option PyCandidate :=
  l.foldl maxStep none

def selectFor (s : ResolverState) (t : Target) (n : String)
    (atoms : List VersionAtom) : Option PyCandidate :=
  match localOverride s n with
  | some c => some c
  | none =>
    maxByVersion (s.index.filter
      (fun c => c.name == n && candCompatible c t && satisfiesAll atoms c.version))

/-- Register one discovered dependency requirement: mark its name required
and merge its constraint into the constraints collected for that name. -/
def depUpdate (st2 : TState) (r : PyReq) : TState :=
  { required := if st2.required.contains r.name then st2.required else r.name :: st2.required,
    constr := fun m =>
      if m == r.name then mergeAtoms (st2.constr m) r.spec else st2.constr m }

/-- Spec §4.1 step 3: add the selected candidates' own applicable
requirements to the work-set, merging constraints per name. -/
def stepRound (s : ResolverState) (t : Target) (st : TState) : TState :=
  ((st.required.filterMap (fun n => selectFor s t n (st.constr n))).map
      (fun c => c.deps.filter (fun r => reqApplies r t))).flatten.foldl depUpdate st

def runRounds (s : ResolverState) (t : Target) : Nat → TState
  | 0 => initTState s t
  | k + 1 => stepRound s t (runRounds s t k)

/-- Enough rounds to reach the fixpoint of the monotone collection of
required names and constraint atoms (spec §4.1 step 5: a name is only
reprocessed while its accumulated constraint set still changes, and both
the name set and the atom set live in a finite universe). -/
def roundBound (s : ResolverState) : Nat :=
  (allNames s).length * ((allAtoms s).length + 1) + 1

def finalTState (s : ResolverState) (t : Target) : TState :=
  runRounds s t (roundBound s)

/-- The constraints collected for a name over the whole resolution of one
Target. -/
def finalConstr (s : ResolverState) (t : Target) (n : String) : List VersionAtom :=
  (finalTState s t).constr n

/-- The names required by the resolution of one Target. -/
def requiredNames (s : ResolverState) (t : Target) : List String :=
  (allNames s).filter (fun n => (finalTState s t).required.contains n)

/-- Per-Target outcome: the names whose constraint set admits no candidate,
and the chosen candidate per resolved name. -/
def resolveTarget (s : ResolverState) (t : Target) :
    List String × List (String × PyCandidate) :=
  ((requiredNames s t).filter (fun n => (selectFor s t n (finalConstr s t n)).isNone),
   (requiredNames s t).filterMap
     (fun n => (selectFor s t n (finalConstr s t n)).map (fun c => (n, c))))

/-- Spec §7: the resolution-time conflict error.  It reports every package
name whose intersected constraint set admits no candidate. -/
inductive ResolutionError
  | unsatisfiableConstraint (names : List String)
deriving DecidableEq

/-- Spec §4.1 `resolve(targets)`: all-or-nothing — either a Closure mapping
each Target to its chosen candidate per name, or an
`UnsatisfiableConstraintError` naming the unsatisfiable packages. -/
def resolve (s : ResolverState) (targets : List Target) :
    Except ResolutionError (List (Target × List (String × PyCandidate))) :=
  if ((targets.map (fun t => (resolveTarget s t).1)).flatten).isEmpty then
    .ok (targets.map (fun t => (t, (resolveTarget s t).2)))
  else
    .error (.unsatisfiableConstraint ((targets.map (fun t => (resolveTarget s t).1)).flatten).dedup)

/-- Lookup of the chosen candidate for a name on a Target in a Closure. -/
def closureLookup (cl : List (Target × List (String × PyCandidate)))
    (t : Target) (n : String) : Option PyCandidate :=
  match cl.find? (fun p => p.1 == t) with
  | none => none
  | some p => (p.2.find? (fun q => q.1 == n)).map (fun q => q.2)

/-- Literal substring search: `charsStartWith pat l` holds when `pat` is an
initial segment of `l`.  Used to instantiate the abstract `re.search`
parameter on literal patterns in concrete examples. -/
def charsStartWith : List Char → List Char → Bool
  | [], _ => true
  | _ :: _, [] => false
  | a :: as, b :: bs => a == b && charsStartWith as bs

def searchAt : List Char → List Char → Bool
  | pat, [] => charsStartWith pat []
  | pat, c :: rest => charsStartWith pat (c :: rest) || searchAt pat rest

/-- `re.search` for a pattern that is a plain literal: does the pattern
occur as a substring? -/
def reSearchLiteral (pat s : String) : Bool :=
  searchAt pat.toList s.toList

/-- Decidable equality on `Except`, so that runs of the embedded programs
can be checked on concrete inputs. -/
instance {ε α : Type} [DecidableEq ε] [DecidableEq α] : DecidableEq (Except ε α)
  | .ok a, .ok b =>
    if h : a = b then .isTrue (congrArg Except.ok h)
    else .isFalse (fun hc => h (Except.ok.inj hc))
  | .error a, .error b =>
    if h : a = b then .isTrue (congrArg Except.error h)
    else .isFalse (fun hc => h (Except.error.inj hc))
  | .ok _, .error _ => .isFalse (fun hc => Except.noConfusion hc)
  | .error _, .ok _ => .isFalse (fun hc => Except.noConfusion hc)

/-! # Theorems -/

theorem string_mk_toList (s : String) : String.mk s.toList = s := rfl

theorem string_toList_append (a b : String) :
    (a ++ b).toList = a.toList ++ b.toList := by
  cases a
  cases b
  rfl

theorem splitFirstHash_no_hash (l : List Char) (h : '#' ∉ l) :
    splitFirstHash l = (l, none) := by
  induction l with
  | nil => rfl
  | cons c rest ih =>
    have hc : ¬ c = '#' := fun hc => h (hc ▸ List.mem_cons_self c rest)
    have hr : '#' ∉ rest := fun hr => h (List.mem_cons_of_mem c hr)
    simp [splitFirstHash, hc, ih hr]

theorem splitFirstHash_hash (a b : List Char) (h : '#' ∉ a) :
    splitFirstHash (a ++ '#' :: b) = (a, some b) := by
  induction a with
  | nil => simp [splitFirstHash]
  | cons c rest ih =>
    have hc : ¬ c = '#' := fun hc => h (hc ▸ List.mem_cons_self c rest)
    have hr : '#' ∉ rest := fun hr => h (List.mem_cons_of_mem c hr)
    simp [splitFirstHash, hc, ih hr]

/-- C4: for every wheel URL containing a `#`, the part before the first `#`
is the checkout URL and the part after it the revision; for a URL without
`#` the revision is `master` (pypiscript.py lines 92–95). -/
theorem wheel_url_revision_split :
    (∀ a b : String, '#' ∉ a.toList → wheelUrlRev (a ++ "#" ++ b) = (a, b)) ∧
    (∀ u : String, '#' ∉ u.toList → wheelUrlRev u = (u, "master")) := by
  constructor
  · intro a b h
    have hsplit : (a ++ "#" ++ b).toList = a.toList ++ '#' :: b.toList := by
      rw [string_toList_append, string_toList_append]
      have h1 : ("#" : String).toList = ['#'] := rfl
      rw [h1, List.append_assoc, List.singleton_append]
    unfold wheelUrlRev
    rw [hsplit, splitFirstHash_hash _ _ h]
    simp [string_mk_toList]
  · intro u h
    unfold wheelUrlRev
    rw [splitFirstHash_no_hash _ h]
    simp [string_mk_toList]

theorem wheel_url_revision_split_witness :
    wheelUrlRev ("https://host/repo" ++ "#" ++ "rev-1") = ("https://host/repo", "rev-1") ∧
    wheelUrlRev "https://host/repo" = ("https://host/repo", "master") :=
  ⟨wheel_url_revision_split.1 "https://host/repo" "rev-1" (by decide),
   wheel_url_revision_split.2 "https://host/repo" (by decide)⟩

theorem foldl_keep_append {α β : Type} (p : α → Bool) (g : α → β) :
    ∀ (l : List α) (acc : List β),
      l.foldl (fun acc x => if p x then acc ++ [g x] else acc) acc
        = acc ++ (l.filter p).map g := by
  intro l
  induction l with
  | nil => intro acc; simp
  | cons x xs ih =>
    intro acc
    simp only [List.foldl_cons, List.filter_cons]
    cases h : p x with
    | true => simp [h, ih, List.append_assoc]
    | false => simp [h, ih]

theorem scriptRun_ok_elim {ε ρ : Type} (parse : String → Except ε ρ)
    (projectName reqStr : ρ → String) (search : String → String → Bool)
    (cfg : ScriptConfig) (targetDir : String)
    (fileClosure : List String) (closureReqs : List ρ) (out : ScriptOutput ρ)
    (hrun : scriptRun parse projectName reqStr search cfg targetDir fileClosure closureReqs
      = .ok out) :
    parseAll parse (cfg.wheels.map Prod.fst ++ cfg.requirements) = .ok out.toplevelReqs ∧
    out.copiedFiles
      = fileClosure.filter (fun f => keepName search cfg (pkgNameOfFile f)) ∧
    out.frozenPath
      = targetDir ++ "/" ++
        (match cfg.frozen_requirement_file with
         | some n => n
         | none => "requirements.txt") ∧
    out.frozenLines
      = (closureReqs.filter (fun r => keepName search cfg (projectName r))).map
          (fun r => reqStr r ++ "\n") := by
  unfold scriptRun at hrun
  cases hp : parseAll parse (cfg.wheels.map Prod.fst ++ cfg.requirements) with
  | error e => rw [hp] at hrun; cases hrun
  | ok reqs =>
    rw [hp] at hrun
    simp only [Except.ok.injEq] at hrun
    subst hrun
    refine ⟨rfl, ?_, rfl, ?_⟩
    · have h := foldl_keep_append
        (fun f => keepName search cfg (pkgNameOfFile f)) (fun f => f) fileClosure []
      simpa using h
    · have h := foldl_keep_append
        (fun r => keepName search cfg (projectName r)) (fun r => reqStr r ++ "\n")
        closureReqs []
      simpa using h

/-- C1: with a configured `discard_from_closure` pattern, every file whose
derived package name matches the pattern is not copied and every
non-matching file is copied; every requirement whose project name matches
is not written to the frozen requirement file and every non-matching one is
(pypiscript.py lines 135–140 and 149–153). -/
theorem discard_pattern_filters_outputs {ε ρ : Type}
    (parse : String → Except ε ρ) (projectName reqStr : ρ → String)
    (search : String → String → Bool) (cfg : ScriptConfig) (targetDir : String)
    (fileClosure : List String) (closureReqs : List ρ) (pat : String)
    (out : ScriptOutput ρ)
    (hpat : cfg.discard_from_closure = some pat)
    (hrun : scriptRun parse projectName reqStr search cfg targetDir fileClosure closureReqs
      = .ok out) :
    out.copiedFiles = fileClosure.filter (fun f => !(search pat (pkgNameOfFile f))) ∧
    out.frozenLines
      = (closureReqs.filter (fun r => !(search pat (projectName r)))).map
          (fun r => reqStr r ++ "\n") := by
  obtain ⟨-, hcopied, -, hlines⟩ := scriptRun_ok_elim parse projectName reqStr search cfg
    targetDir fileClosure closureReqs out hrun
  have hkeep : ∀ name, keepName search cfg name = !(search pat name) := by
    intro name
    simp [keepName, hpat]
  constructor
  · rw [hcopied]
    congr 1
    funext f
    exact hkeep (pkgNameOfFile f)
  · rw [hlines]
    congr 2
    funext r
    exact hkeep (projectName r)

theorem discard_pattern_filters_outputs_witness :
    scriptRun (fun s => (Except.ok s : Except String String)) (fun r => r) (fun r => r)
      reSearchLiteral
      { wheels := [], requirements := [], discard_from_closure := some "internal-",
        frozen_requirement_file := none, platforms := ["x86_64-linux"] }
      "target"
      ["cache/internal_tools-1.0-any.whl", "cache/flask-2.0-any.whl"]
      ["internal-tools", "flask"]
      = .ok { toplevelReqs := [], copiedFiles := ["cache/flask-2.0-any.whl"],
              frozenPath := "target/requirements.txt", frozenLines := ["flask\n"] } ∧
    (ScriptOutput.copiedFiles
        { toplevelReqs := ([] : List String), copiedFiles := ["cache/flask-2.0-any.whl"],
          frozenPath := "target/requirements.txt", frozenLines := ["flask\n"] }
      = ["cache/internal_tools-1.0-any.whl", "cache/flask-2.0-any.whl"].filter
          (fun f => !(reSearchLiteral "internal-" (pkgNameOfFile f))) ∧
     ScriptOutput.frozenLines
        { toplevelReqs := ([] : List String), copiedFiles := ["cache/flask-2.0-any.whl"],
          frozenPath := "target/requirements.txt", frozenLines := ["flask\n"] }
      = (["internal-tools", "flask"].filter
          (fun r => !(reSearchLiteral "internal-" r))).map (fun r => r ++ "\n")) :=
  ⟨by decide,
   discard_pattern_filters_outputs (fun s => (Except.ok s : Except String String))
     (fun r => r) (fun r => r) reSearchLiteral
     { wheels := [], requirements := [], discard_from_closure := some "internal-",
       frozen_requirement_file := none, platforms := ["x86_64-linux"] }
     "target"
     ["cache/internal_tools-1.0-any.whl", "cache/flask-2.0-any.whl"]
     ["internal-tools", "flask"] "internal-"
     { toplevelReqs := [], copiedFiles := ["cache/flask-2.0-any.whl"],
       frozenPath := "target/requirements.txt", frozenLines := ["flask\n"] }
     rfl (by decide)⟩

/-- C2: each requirement yielded by `closure_as_requirements()` that is not
discarded is written as exactly one line — its string form followed by a
newline — into the frozen requirement file inside the target directory,
named by `frozen_requirement_file` and defaulting to `requirements.txt`
(pypiscript.py lines 142–153). -/
theorem frozen_requirement_file_lines {ε ρ : Type}
    (parse : String → Except ε ρ) (projectName reqStr : ρ → String)
    (search : String → String → Bool) (cfg : ScriptConfig) (targetDir : String)
    (fileClosure : List String) (closureReqs : List ρ) (out : ScriptOutput ρ)
    (hrun : scriptRun parse projectName reqStr search cfg targetDir fileClosure closureReqs
      = .ok out) :
    (cfg.frozen_requirement_file = none →
      out.frozenPath = targetDir ++ "/" ++ "requirements.txt") ∧
    (∀ n, cfg.frozen_requirement_file = some n →
      out.frozenPath = targetDir ++ "/" ++ n) ∧
    out.frozenLines
      = (closureReqs.filter (fun r => keepName search cfg (projectName r))).map
          (fun r => reqStr r ++ "\n") := by
  obtain ⟨-, -, hpath, hlines⟩ := scriptRun_ok_elim parse projectName reqStr search cfg
    targetDir fileClosure closureReqs out hrun
  refine ⟨fun hn => ?_, fun n hn => ?_, hlines⟩
  · rw [hpath, hn]
  · rw [hpath, hn]

theorem frozen_requirement_file_lines_witness :
    scriptRun (fun s => (Except.ok s : Except String String)) (fun r => r) (fun r => r)
      reSearchLiteral
      { wheels := [], requirements := ["flask"], discard_from_closure := none,
        frozen_requirement_file := some "frozen.txt", platforms := [] }
      "target" [] ["flask", "jinja2"]
      = .ok { toplevelReqs := ["flask"], copiedFiles := [],
              frozenPath := "target/frozen.txt", frozenLines := ["flask\n", "jinja2\n"] } ∧
    ScriptOutput.frozenPath
        { toplevelReqs := ["flask"], copiedFiles := ([] : List String),
          frozenPath := "target/frozen.txt", frozenLines := ["flask\n", "jinja2\n"] }
      = "target" ++ "/" ++ "frozen.txt" :=
  ⟨by decide,
   (frozen_requirement_file_lines (fun s => (Except.ok s : Except String String))
     (fun r => r) (fun r => r) reSearchLiteral
     { wheels := [], requirements := ["flask"], discard_from_closure := none,
       frozen_requirement_file := some "frozen.txt", platforms := [] }
     "target" [] ["flask", "jinja2"]
     { toplevelReqs := ["flask"], copiedFiles := [],
       frozenPath := "target/frozen.txt", frozenLines := ["flask\n", "jinja2\n"] }
     (by decide)).2.1 "frozen.txt" rfl⟩

theorem parseAll_error_of_mem {ε ρ : Type} (parse : String → Except ε ρ)
    (l : List String) (s : String) (e : ε)
    (hs : s ∈ l) (he : parse s = .error e) :
    ∃ e2, parseAll parse l = .error e2 := by
  induction l with
  | nil => cases hs
  | cons x xs ih =>
    rcases List.mem_cons.mp hs with h | h
    · subst h
      exact ⟨e, by simp [parseAll, he]⟩
    · cases hx : parse x with
      | error e3 => exact ⟨e3, by simp [parseAll, hx]⟩
      | ok r =>
        obtain ⟨e2, h2⟩ := ih h
        exact ⟨e2, by simp [parseAll, hx, h2]⟩

theorem parseAll_ok_mem {ε ρ : Type} (parse : String → Except ε ρ)
    (l : List String) (rs : List ρ)
    (h : parseAll parse l = .ok rs) :
    ∀ s ∈ l, ∃ r, parse s = .ok r ∧ r ∈ rs := by
  induction l generalizing rs with
  | nil => intro s hs; cases hs
  | cons x xs ih =>
    intro s hs
    cases hx : parse x with
    | error e => rw [parseAll, hx] at h; cases h
    | ok r =>
      rw [parseAll, hx] at h
      cases hxs : parseAll parse xs with
      | error e => rw [hxs] at h; cases h
      | ok rtail =>
        rw [hxs] at h
        simp only [Except.ok.injEq] at h
        subst h
        rcases List.mem_cons.mp hs with hh | hh
        · exact ⟨r, hh ▸ hx, List.mem_cons_self r rtail⟩
        · obtain ⟨r2, hr2, hmem⟩ := ih rtail hxs s hh
          exact ⟨r2, hr2, List.mem_cons_of_mem r hmem⟩

/-- C3: a requirement string (from the `requirements` list or a `wheels`
key) the parser rejects aborts the run with the parse error before any
resolution output is produced, and on a successful run every configured
string has been parsed into a requirement added to the resolver
(pypiscript.py lines 116–119 and 131–133). -/
theorem invalid_requirement_surfaced {ε ρ : Type}
    (parse : String → Except ε ρ) (projectName reqStr : ρ → String)
    (search : String → String → Bool) (cfg : ScriptConfig) (targetDir : String)
    (fileClosure : List String) (closureReqs : List ρ) :
    ((∃ s ∈ cfg.wheels.map Prod.fst ++ cfg.requirements, ∃ e, parse s = .error e) →
      ∃ e2, scriptRun parse projectName reqStr search cfg targetDir fileClosure closureReqs
        = .error e2) ∧
    (∀ out, scriptRun parse projectName reqStr search cfg targetDir fileClosure closureReqs
        = .ok out →
      ∀ s ∈ cfg.wheels.map Prod.fst ++ cfg.requirements,
        ∃ r, parse s = .ok r ∧ r ∈ out.toplevelReqs) := by
  constructor
  · rintro ⟨s, hs, e, he⟩
    obtain ⟨e2, h2⟩ := parseAll_error_of_mem parse _ s e hs he
    exact ⟨e2, by unfold scriptRun; rw [h2]⟩
  · intro out hrun s hs
    obtain ⟨hparse, -, -, -⟩ := scriptRun_ok_elim parse projectName reqStr search cfg
      targetDir fileClosure closureReqs out hrun
    exact parseAll_ok_mem parse _ _ hparse s hs

theorem invalid_requirement_surfaced_witness :
    (∃ s ∈ ["mywheel", "bad req"],
        ∃ e, (fun s => if s = "bad req" then (Except.error "invalid" : Except String String)
              else Except.ok s) s = .error e) ∧
    (∃ e2, scriptRun
        (fun s => if s = "bad req" then (Except.error "invalid" : Except String String)
          else Except.ok s)
        (fun r => r) (fun r => r) reSearchLiteral
        { wheels := [("mywheel", "https://host/repo")], requirements := ["bad req"],
          discard_from_closure := none, frozen_requirement_file := none, platforms := [] }
        "target" [] [] = .error e2) :=
  ⟨⟨"bad req", by decide, "invalid", by decide⟩,
   (invalid_requirement_surfaced
      (fun s => if s = "bad req" then (Except.error "invalid" : Except String String)
        else Except.ok s)
      (fun r => r) (fun r => r) reSearchLiteral
      { wheels := [("mywheel", "https://host/repo")], requirements := ["bad req"],
        discard_from_closure := none, frozen_requirement_file := none, platforms := [] }
      "target" [] []).1 ⟨"bad req", by decide, "invalid", by decide⟩⟩

/-- C8: every key of the `wheels` mapping is itself parsed as a requirement
and ends up among the top-level requirements added to the resolver, even
when the `requirements` list does not mention it (pypiscript.py
lines 116–119 and 131–133). -/
theorem wheel_names_are_toplevel_requirements {ε ρ : Type}
    (parse : String → Except ε ρ) (projectName reqStr : ρ → String)
    (search : String → String → Bool) (cfg : ScriptConfig) (targetDir : String)
    (fileClosure : List String) (closureReqs : List ρ) (k u : String)
    (out : ScriptOutput ρ)
    (hk : (k, u) ∈ cfg.wheels)
    (hrun : scriptRun parse projectName reqStr search cfg targetDir fileClosure closureReqs
      = .ok out) :
    ∃ r, parse k = .ok r ∧ r ∈ out.toplevelReqs := by
  obtain ⟨hparse, -, -, -⟩ := scriptRun_ok_elim parse projectName reqStr search cfg
    targetDir fileClosure closureReqs out hrun
  refine parseAll_ok_mem parse _ _ hparse k ?_
  exact List.mem_append_left _ (List.mem_map.mpr ⟨(k, u), hk, rfl⟩)

theorem wheel_names_are_toplevel_requirements_witness :
    ("mywheel", "https://host/repo") ∈ ScriptConfig.wheels
        { wheels := [("mywheel", "https://host/repo")], requirements := ["flask"],
          discard_from_closure := none, frozen_requirement_file := none, platforms := [] } ∧
    ∃ r, (fun s => (Except.ok s : Except String String)) "mywheel" = .ok r ∧
      r ∈ ScriptOutput.toplevelReqs
          { toplevelReqs := ["mywheel", "flask"], copiedFiles := ([] : List String),
            frozenPath := "target/requirements.txt", frozenLines := ([] : List String) } :=
  ⟨by decide,
   wheel_names_are_toplevel_requirements
     (fun s => (Except.ok s : Except String String)) (fun r => r) (fun r => r)
     reSearchLiteral
     { wheels := [("mywheel", "https://host/repo")], requirements := ["flask"],
       discard_from_closure := none, frozen_requirement_file := none, platforms := [] }
     "target" [] [] "mywheel" "https://host/repo"
     { toplevelReqs := ["mywheel", "flask"], copiedFiles := [],
       frozenPath := "target/requirements.txt", frozenLines := [] }
     (by decide) (by decide)⟩

theorem applyPatterns_counts_length (subn : String → String → String → String × Nat)
    (ps : List (String × String)) :
    ∀ line, (applyPatterns subn ps line).2.length = ps.length := by
  induction ps with
  | nil => intro line; rfl
  | cons p rest ih =>
    intro line
    simp [applyPatterns, ih]

theorem addCounts_getD (a : List Nat) :
    ∀ (b : List Nat) (i : Nat), a.length = b.length →
      (addCounts a b).getD i 0 = a.getD i 0 + b.getD i 0 := by
  induction a with
  | nil =>
    intro b i h
    cases b with
    | nil => simp [addCounts]
    | cons y ys => cases h
  | cons x xs ih =>
    intro b i h
    cases b with
    | nil => cases h
    | cons y ys =>
      cases i with
      | zero => simp [addCounts]
      | succ j =>
        simp only [addCounts, List.zipWith_cons_cons, List.getD_cons_succ]
        exact ih ys j (Nat.succ_injective h)

theorem addCounts_length (a b : List Nat) (h : a.length = b.length) :
    (addCounts a b).length = a.length := by
  simp [addCounts, h]

theorem text_replace_scan_spec (subn : String → String → String → String × Nat)
    (ps : List (String × String)) :
    ∀ (lines : List String) (acc : List Nat × List String), acc.1.length = ps.length →
      (lines.foldl
          (fun acc line =>
            (addCounts acc.1 (applyPatterns subn ps line).2,
             acc.2 ++ [(applyPatterns subn ps line).1])) acc).1.length = ps.length ∧
      ∀ i, (lines.foldl
          (fun acc line =>
            (addCounts acc.1 (applyPatterns subn ps line).2,
             acc.2 ++ [(applyPatterns subn ps line).1])) acc).1.getD i 0
        = acc.1.getD i 0
          + (lines.map (fun line => (applyPatterns subn ps line).2.getD i 0)).sum := by
  intro lines
  induction lines with
  | nil =>
    intro acc h
    exact ⟨h, fun i => by simp⟩
  | cons l ls ih =>
    intro acc h
    have hll : acc.1.length = (applyPatterns subn ps l).2.length := by
      rw [h, applyPatterns_counts_length]
    have hlen : (addCounts acc.1 (applyPatterns subn ps l).2).length = ps.length := by
      rw [addCounts_length _ _ hll, h]
    obtain ⟨ih1, ih2⟩ := ih
      (addCounts acc.1 (applyPatterns subn ps l).2,
       acc.2 ++ [(applyPatterns subn ps l).1]) hlen
    refine ⟨ih1, fun i => ?_⟩
    simp only [List.foldl_cons, List.map_cons, List.sum_cons]
    rw [ih2 i]
    simp only [addCounts_getD _ _ i hll]
    omega

theorem map_zero_getD (ps : List (String × String)) :
    ∀ i, (ps.map (fun _ => (0 : Nat))).getD i 0 = 0 := by
  induction ps with
  | nil => intro i; simp
  | cons p rest ih =>
    intro i
    cases i with
    | zero => simp
    | succ j =>
      simp only [List.map_cons, List.getD_cons_succ]
      exact ih j

theorem text_replace_fst (subn : String → String → String → String × Nat)
    (patterns : List (String × String)) (fileLines : List String) :
    (text_replace subn patterns fileLines).1
      = (text_replace_scan subn patterns fileLines).1 := by
  cases h : (text_replace_scan subn patterns fileLines).1.any (fun nb => !(nb == 0)) <;>
    simp [text_replace, h]

/-- C9: `text_replace` returns one counter per pattern — entry `i` being the
total number of substitutions `re.subn` reported for pattern `i` over all
lines — and when every counter is zero the file is never opened for
writing, so its on-disk contents are unchanged (e3/anod/helper.py
lines 237–267). -/
theorem text_replace_counts_and_frame (subn : String → String → String → String × Nat)
    (patterns : List (String × String)) (fileLines : List String) :
    (text_replace subn patterns fileLines).1.length = patterns.length ∧
    (∀ i, (text_replace subn patterns fileLines).1.getD i 0
      = (fileLines.map (fun line => (applyPatterns subn patterns line).2.getD i 0)).sum) ∧
    ((∀ nb ∈ (text_replace subn patterns fileLines).1, nb = 0) →
      text_replace_disk subn patterns fileLines = fileLines) := by
  have hinit : (patterns.map (fun _ => (0 : Nat))).length = patterns.length := by simp
  obtain ⟨h1, h2⟩ := text_replace_scan_spec subn patterns fileLines
    (patterns.map (fun _ => (0 : Nat)), ([] : List String)) hinit
  refine ⟨?_, ?_, ?_⟩
  · rw [text_replace_fst]
    exact h1
  · intro i
    rw [text_replace_fst]
    have h3 := h2 i
    rw [map_zero_getD patterns i, Nat.zero_add] at h3
    exact h3
  · intro hz
    rw [text_replace_fst] at hz
    have hany : ((text_replace_scan subn patterns fileLines).1.any
        (fun nb => !(nb == 0))) = false := by
      rw [List.any_eq_false]
      intro x hx
      simp [hz x hx]
    unfold text_replace_disk text_replace
    simp [hany]

theorem text_replace_counts_and_frame_witness :
    (text_replace (fun pat repl line => if line = pat then (repl, 1) else (line, 0))
        [("old", "new")] ["keep1", "keep2"]).1.length = 1 ∧
    (text_replace (fun pat repl line => if line = pat then (repl, 1) else (line, 0))
        [("old", "new")] ["keep1", "keep2"]).1.getD 0 0
      = (["keep1", "keep2"].map
          (fun line => (applyPatterns
            (fun pat repl line => if line = pat then (repl, 1) else (line, 0))
            [("old", "new")] line).2.getD 0 0)).sum ∧
    text_replace_disk (fun pat repl line => if line = pat then (repl, 1) else (line, 0))
        [("old", "new")] ["keep1", "keep2"] = ["keep1", "keep2"] :=
  ⟨(text_replace_counts_and_frame
      (fun pat repl line => if line = pat then (repl, 1) else (line, 0))
      [("old", "new")] ["keep1", "keep2"]).1,
   (text_replace_counts_and_frame
      (fun pat repl line => if line = pat then (repl, 1) else (line, 0))
      [("old", "new")] ["keep1", "keep2"]).2.1 0,
   (text_replace_counts_and_frame
      (fun pat repl line => if line = pat then (repl, 1) else (line, 0))
      [("old", "new")] ["keep1", "keep2"]).2.2 (by decide)⟩

theorem gplDetect_good (st : GplState) (line : String)
    (h : st.i = 1 ∨ gplGood st) : gplGood (gplDetect st line) := by
  rcases h with h | h
  · simp [gplDetect, h, gplGood]
  · by_cases hi : st.i = 1
    · simp [gplDetect, hi, gplGood]
    · simpa [gplDetect, hi, gplGood] using h

theorem gplDetect_state (st : GplState) (line : String) :
    (gplDetect st line).state = st.state := by
  by_cases hi : st.i = 1 <;> simp [gplDetect, hi]

theorem gplStep_cases (mb me : String → Bool) (st : GplState) (line : String)
    (hg : gplGood (gplDetect st line)) :
    ∃ st2, gplStep mb me st line = .ok st2 ∧ gplGood st2 ∧
      (mb line = true → st2.state = 0) ∧
      (mb line = false → me line = false → st.state = 0 → st2.state = 0) := by
  obtain ⟨c1, hc1⟩ := Option.isSome_iff_exists.mp hg.1
  obtain ⟨c2, hc2⟩ := Option.isSome_iff_exists.mp hg.2
  have hds : (gplDetect st line).state = st.state := gplDetect_state st line
  cases hmb : mb line with
  | true =>
    refine ⟨{ gplDetect st line with
              state := 0,
              out := (gplDetect st line).out ++ [blankLine c1 c2] }, ?_, ?_, ?_, ?_⟩
    · simp [gplStep, hmb, hc1, hc2]
    · exact ⟨by simp [hc1], by simp [hc2]⟩
    · intro _; rfl
    · intro h; cases h
  | false =>
    cases hme : me line with
    | true =>
      by_cases hst : st.state = 0
      · refine ⟨{ gplDetect st line with
                  state := 1,
                  out := (gplDetect st line).out ++ [blankLine c1 c2] }, ?_, ?_, ?_, ?_⟩
        · simp [gplStep, hmb, hme, hds, hst, hc1, hc2]
        · exact ⟨by simp [hc1], by simp [hc2]⟩
        · intro h; cases h
        · intro _ h; cases h
      · -- end pattern matched while not inside a paragraph: fall through
        by_cases h1 : st.state = 1
        · refine ⟨{ gplDetect st line with
                    state := 3,
                    out := (gplDetect st line).out ++ [line] }, ?_, ?_, ?_, ?_⟩
          · simp [gplStep, hmb, hme, hds, hst, h1]
          · exact ⟨by simp [hc1], by simp [hc2]⟩
          · intro h; cases h
          · intro _ _ h; exact absurd h hst
        · refine ⟨{ gplDetect st line with
                    out := (gplDetect st line).out ++ [line] }, ?_, ?_, ?_, ?_⟩
          · simp [gplStep, hmb, hme, hds, hst, h1]
          · exact ⟨by simp [hc1], by simp [hc2]⟩
          · intro h; cases h
          · intro _ _ h; exact absurd h hst
    | false =>
      by_cases hst : st.state = 0
      · refine ⟨{ gplDetect st line with
                  out := (gplDetect st line).out ++ [blankLine c1 c2] }, ?_, ?_, ?_, ?_⟩
        · simp [gplStep, hmb, hme, hds, hst, hc1, hc2]
        · exact ⟨by simp [hc1], by simp [hc2]⟩
        · intro h; cases h
        · intro _ _ _; simpa [hds] using hst
      · by_cases h1 : st.state = 1
        · refine ⟨{ gplDetect st line with
                    state := 3,
                    out := (gplDetect st line).out ++ [line] }, ?_, ?_, ?_, ?_⟩
          · simp [gplStep, hmb, hme, hds, hst, h1]
          · exact ⟨by simp [hc1], by simp [hc2]⟩
          · intro h; cases h
          · intro _ _ h; exact absurd h hst
        · refine ⟨{ gplDetect st line with
                    out := (gplDetect st line).out ++ [line] }, ?_, ?_, ?_, ?_⟩
          · simp [gplStep, hmb, hme, hds, hst, h1]
          · exact ⟨by simp [hc1], by simp [hc2]⟩
          · intro h; cases h
          · intro _ _ h; exact absurd h hst

theorem gplRun_append (mb me : String → Bool) (xs : List String) :
    ∀ (ys : List String) (st : GplState),
      gplRun mb me st (xs ++ ys)
        = match gplRun mb me st xs with
          | .error e => .error e
          | .ok st2 => gplRun mb me st2 ys := by
  induction xs with
  | nil => intro ys st; rfl
  | cons x rest ih =>
    intro ys st
    simp only [List.cons_append, gplRun]
    cases gplStep mb me st x with
    | error e => rfl
    | ok st2 => exact ih ys st2

theorem gplRun_pre (mb me : String → Bool) (pre : List String) :
    ∀ st : GplState, (st.i = 1 ∨ gplGood st) →
      ∃ st2, gplRun mb me st pre = .ok st2 ∧ (st2.i = 1 ∨ gplGood st2) := by
  induction pre with
  | nil => intro st h; exact ⟨st, rfl, h⟩
  | cons l rest ih =>
    intro st h
    have hg := gplDetect_good st l h
    obtain ⟨st2, hstep, hgood, -, -⟩ := gplStep_cases mb me st l hg
    obtain ⟨st3, hrun, h3⟩ := ih st2 (Or.inr hgood)
    exact ⟨st3, by simp only [gplRun, hstep]; exact hrun, h3⟩

theorem gplRun_post (mb me : String → Bool) (post : List String) :
    ∀ st : GplState, gplGood st → st.state = 0 → (∀ l ∈ post, me l = false) →
      ∃ st2, gplRun mb me st post = .ok st2 ∧ st2.state = 0 := by
  induction post with
  | nil => intro st _ hst _; exact ⟨st, rfl, hst⟩
  | cons l rest ih =>
    intro st hgood hst hme
    have hg := gplDetect_good st l (Or.inr hgood)
    obtain ⟨st2, hstep, hgood2, hb, hnb⟩ := gplStep_cases mb me st l hg
    have hst2 : st2.state = 0 := by
      cases hmb : mb l with
      | true => exact hb hmb
      | false => exact hnb hmb (hme l (List.mem_cons_self l rest)) hst
    obtain ⟨st3, hrun, h3⟩ := ih st2 hgood2 hst2
      (fun x hx => hme x (List.mem_cons_of_mem l hx))
    exact ⟨st3, by simp only [gplRun, hstep]; exact hrun, h3⟩

theorem gplStep_init (mb me : String → Bool) (p0 : String) (h : mb p0 = false) :
    gplStep mb me gplInit p0
      = .ok { out := [p0], state := 2, i := 1, comment1 := none, comment2 := none } := by
  simp [gplStep, gplDetect, gplInit, h]

/-- C10 (amended): for a file whose first line does not match a
begin-of-exception pattern, if some line matches a begin pattern and no
line after it matches an end pattern before end of file, `remove_paragraph`
raises the `AnodError` naming the file and the file's on-disk contents are
unchanged, the rewrite happening only after a fully successful scan
(e3/anod/helper.py lines 283–351). -/
theorem remove_paragraph_end_not_found (mb me : String → Bool)
    (filename p0 bl : String) (pre post : List String)
    (h0 : mb p0 = false) (hb : mb bl = true)
    (hpost : ∀ l ∈ post, me l = false) :
    remove_paragraph mb me filename (p0 :: (pre ++ bl :: post))
      = .error (.endNotFound filename) ∧
    remove_paragraph_disk mb me filename (p0 :: (pre ++ bl :: post))
      = p0 :: (pre ++ bl :: post) := by
  have hrun : ∃ st4, gplRun mb me gplInit (p0 :: (pre ++ bl :: post)) = .ok st4 ∧
      st4.state = 0 := by
    have h1 := gplStep_init mb me p0 h0
    obtain ⟨st2, hpre, hdisj⟩ := gplRun_pre mb me pre
      { out := [p0], state := 2, i := 1, comment1 := none, comment2 := none }
      (Or.inl rfl)
    have hg := gplDetect_good st2 bl hdisj
    obtain ⟨st3, hbl, hgood3, hb3, -⟩ := gplStep_cases mb me st2 bl hg
    obtain ⟨st4, hp4, hs4⟩ := gplRun_post mb me post st3 hgood3 (hb3 hb) hpost
    refine ⟨st4, ?_, hs4⟩
    simp only [gplRun, h1]
    rw [gplRun_append]
    rw [hpre]
    simp only [gplRun, hbl]
    exact hp4
  obtain ⟨st4, hrun4, hs4⟩ := hrun
  have hmain : remove_paragraph mb me filename (p0 :: (pre ++ bl :: post))
      = .error (.endNotFound filename) := by
    unfold remove_paragraph
    rw [hrun4]
    simp [hs4]
  refine ⟨hmain, ?_⟩
  unfold remove_paragraph_disk
  rw [hmain]

theorem remove_paragraph_end_not_found_witness :
    remove_paragraph (fun s => s == "-- begin exception") (fun s => s == "-- end exception")
      "pack.ads" ("with Ada;" :: ([] ++ "-- begin exception" :: ["procedure P;"]))
      = .error (.endNotFound "pack.ads") ∧
    remove_paragraph_disk (fun s => s == "-- begin exception") (fun s => s == "-- end exception")
      "pack.ads" ("with Ada;" :: ([] ++ "-- begin exception" :: ["procedure P;"]))
      = "with Ada;" :: ([] ++ "-- begin exception" :: ["procedure P;"]) :=
  remove_paragraph_end_not_found (fun s => s == "-- begin exception")
    (fun s => s == "-- end exception") "pack.ads" "with Ada;" "-- begin exception"
    [] ["procedure P;"] (by decide) (by decide) (by decide)

/-- C10, counterexample to the claim as stated: a file whose very first
line matches a begin pattern (and with no later end match) does not produce
the `AnodError` naming the file — the blank-comment write happens before
`comment1`/`comment2` were ever assigned, which in the Python source is an
`UnboundLocalError`, not the `AnodError` of the missing paragraph end.  The
file is still left unchanged. -/
theorem remove_paragraph_first_line_counterexample :
    remove_paragraph (fun _ => true) (fun _ => false) "pack.ads"
      ["-- As a special exception, if other files instantiate generics from this"]
      = .error .uninitializedComment ∧
    (GplError.uninitializedComment ≠ GplError.endNotFound "pack.ads") ∧
    remove_paragraph_disk (fun _ => true) (fun _ => false) "pack.ads"
      ["-- As a special exception, if other files instantiate generics from this"]
      = ["-- As a special exception, if other files instantiate generics from this"] := by
  refine ⟨by decide, by decide, by decide⟩

theorem versionLt_imp_le (a b : Version) (h : versionLt a b = true) :
    versionLe a b = true := by
  simp only [versionLt, versionLe, decide_eq_true_eq] at *
  omega

theorem versionLe_trans (a b c : Version) (h1 : versionLe a b = true)
    (h2 : versionLe b c = true) : versionLe a c = true := by
  simp only [versionLe, decide_eq_true_eq] at *
  omega

theorem versionLe_of_not_lt (a b : Version) (h : versionLt a b = false) :
    versionLe b a = true := by
  simp only [versionLt, decide_eq_false_iff_not] at h
  simp only [versionLe, decide_eq_true_eq]
  omega

theorem versionLe_refl (a : Version) : versionLe a a = true := by
  simp [versionLe]

theorem foldl_maxStep_mem (l : List PyCandidate) :
    ∀ (acc : Option PyCandidate) (c : PyCandidate),
      l.foldl maxStep acc = some c → acc = some c ∨ c ∈ l := by
  induction l with
  | nil => intro acc c h; exact Or.inl h
  | cons x xs ih =>
    intro acc c h
    rcases ih (maxStep acc x) c h with h2 | h2
    · cases acc with
      | none =>
        simp only [maxStep, Option.some.injEq] at h2
        exact Or.inr (h2 ▸ List.mem_cons_self x xs)
      | some b =>
        cases hlt : versionLt b.version x.version with
        | true =>
          rw [maxStep, if_pos hlt] at h2
          simp only [Option.some.injEq] at h2
          exact Or.inr (h2 ▸ List.mem_cons_self x xs)
        | false =>
          rw [maxStep, if_neg (by simp [hlt])] at h2
          exact Or.inl h2
    · exact Or.inr (List.mem_cons_of_mem x h2)

theorem foldl_maxStep_ge (l : List PyCandidate) :
    ∀ (acc : Option PyCandidate) (c : PyCandidate),
      l.foldl maxStep acc = some c →
      (∀ b, acc = some b → versionLe b.version c.version = true) ∧
      (∀ x ∈ l, versionLe x.version c.version = true) := by
  induction l with
  | nil =>
    intro acc c h
    refine ⟨fun b hb => ?_, fun x hx => absurd hx (List.not_mem_nil x)⟩
    rw [hb] at h
    simp only [List.foldl_nil, Option.some.injEq] at h
    rw [h]
    exact versionLe_refl _
  | cons x xs ih =>
    intro acc c h
    simp only [List.foldl_cons] at h
    obtain ⟨hacc, hxs⟩ := ih (maxStep acc x) c h
    have hx : versionLe x.version c.version = true := by
      cases acc with
      | none => exact hacc x rfl
      | some b =>
        cases hlt : versionLt b.version x.version with
        | true => exact hacc x (by rw [maxStep, if_pos hlt])
        | false =>
          have hb : versionLe b.version c.version = true :=
            hacc b (by rw [maxStep, if_neg (by simp [hlt])])
          exact versionLe_trans _ _ _ (versionLe_of_not_lt _ _ hlt) hb
    refine ⟨fun b hb => ?_, fun y hy => ?_⟩
    · subst hb
      cases hlt : versionLt b.version x.version with
      | true =>
        exact versionLe_trans _ _ _ (versionLt_imp_le _ _ hlt) hx
      | false => exact hacc b (by rw [maxStep, if_neg (by simp [hlt])])
    · rcases List.mem_cons.mp hy with hy | hy
      · exact hy ▸ hx
      · exact hxs y hy

theorem maxByVersion_some_mem (l : List PyCandidate) (c : PyCandidate)
    (h : maxByVersion l = some c) : c ∈ l := by
  rcases foldl_maxStep_mem l none c h with h2 | h2
  · cases h2
  · exact h2

theorem maxByVersion_some_ge (l : List PyCandidate) (c : PyCandidate)
    (h : maxByVersion l = some c) :
    ∀ x ∈ l, versionLe x.version c.version = true :=
  (foldl_maxStep_ge l none c h).2

theorem resolve_ok_entry (s : ResolverState) (targets : List Target)
    (cl : List (Target × List (String × PyCandidate)))
    (t : Target) (m : List (String × PyCandidate))
    (hres : resolve s targets = .ok cl) (hmem : (t, m) ∈ cl) :
    m = (resolveTarget s t).2 := by
  unfold resolve at hres
  split at hres
  · simp only [Except.ok.injEq] at hres
    subst hres
    obtain ⟨t0, ht0, heq⟩ := List.mem_map.mp hmem
    simp only [Prod.mk.injEq] at heq
    rw [← heq.2, heq.1]
  · cases hres

theorem resolveTarget_chosen (s : ResolverState) (t : Target) (n : String)
    (c : PyCandidate) (h : (n, c) ∈ (resolveTarget s t).2) :
    selectFor s t n (finalConstr s t n) = some c := by
  unfold resolveTarget at h
  obtain ⟨n0, hn0, hmap⟩ := List.mem_filterMap.mp h
  cases hsel : selectFor s t n0 (finalConstr s t n0) with
  | none => rw [hsel] at hmap; cases hmap
  | some c0 =>
    rw [hsel] at hmap
    simp only [Option.map_some', Option.some.injEq, Prod.mk.injEq] at hmap
    rw [← hmap.1, ← hmap.2]
    exact hsel

theorem closureLookup_chosen (s : ResolverState) (targets : List Target)
    (cl : List (Target × List (String × PyCandidate)))
    (t : Target) (n : String) (c : PyCandidate)
    (hres : resolve s targets = .ok cl)
    (hlook : closureLookup cl t n = some c) :
    selectFor s t n (finalConstr s t n) = some c := by
  unfold closureLookup at hlook
  cases hf : cl.find? (fun p => p.1 == t) with
  | none => rw [hf] at hlook; cases hlook
  | some p =>
    rw [hf] at hlook
    obtain ⟨p1, p2⟩ := p
    change Option.map (fun q => q.2) (p2.find? (fun q => q.1 == n)) = some c at hlook
    cases hq : p2.find? (fun q => q.1 == n) with
    | none => rw [hq] at hlook; cases hlook
    | some q =>
      rw [hq] at hlook
      obtain ⟨q1, qc⟩ := q
      simp only [Option.map_some', Option.some.injEq] at hlook
      have hpt : (p1 == t) = true := by simpa using List.find?_some hf
      have hqn : (q1 == n) = true := by simpa using List.find?_some hq
      have hteq : p1 = t := by simpa using hpt
      have hneq : q1 = n := by simpa using hqn
      have hpmem : (p1, p2) ∈ cl := List.mem_of_find?_eq_some hf
      have hqmem : (q1, qc) ∈ p2 := List.mem_of_find?_eq_some hq
      have hm : p2 = (resolveTarget s t).2 :=
        resolve_ok_entry s targets cl t p2 hres (hteq ▸ hpmem)
    -- the found pair is one produced by `resolveTarget`
      have := resolveTarget_chosen s t n qc (by rw [← hm, ← hneq]; exact hqmem)
      rw [this, hlook]

/-- C5: a locally built candidate registered for a package name is the one
every Target's Closure selects for that name, whatever the versions of the
remote candidates (spec §3 LocalOverride invariant; resolver modelled from
the spec, selection is `selectFor`). -/
theorem local_override_always_selected (s : ResolverState) (targets : List Target)
    (cl : List (Target × List (String × PyCandidate)))
    (t : Target) (n : String) (c c2 : PyCandidate)
    (hres : resolve s targets = .ok cl)
    (hloc : localOverride s n = some c)
    (hlook : closureLookup cl t n = some c2) :
    c2 = c := by
  have hsel := closureLookup_chosen s targets cl t n c2 hres hlook
  unfold selectFor at hsel
  rw [hloc] at hsel
  exact (Option.some.inj hsel).symm

theorem local_override_always_selected_witness :
    resolve
      { locals := [{ name := "pkg", version := (1, 0), compatTargets := none, deps := [] }],
        reqs := [{ name := "pkg", spec := [], marker := none }],
        index := [{ name := "pkg", version := (9, 9), compatTargets := none, deps := [] }] }
      [{ platform := "x86_64-linux", pyVersion := (3, 10) }]
      = .ok [({ platform := "x86_64-linux", pyVersion := (3, 10) },
              [("pkg", { name := "pkg", version := (1, 0), compatTargets := none,
                         deps := [] })])] ∧
    localOverride
      { locals := [{ name := "pkg", version := (1, 0), compatTargets := none, deps := [] }],
        reqs := [{ name := "pkg", spec := [], marker := none }],
        index := [{ name := "pkg", version := (9, 9), compatTargets := none, deps := [] }] }
      "pkg"
      = some { name := "pkg", version := (1, 0), compatTargets := none, deps := [] } ∧
    ({ name := "pkg", version := (1, 0), compatTargets := none, deps := [] } : PyCandidate)
      = { name := "pkg", version := (1, 0), compatTargets := none, deps := [] } :=
  ⟨by decide, by decide,
   local_override_always_selected
     { locals := [{ name := "pkg", version := (1, 0), compatTargets := none, deps := [] }],
       reqs := [{ name := "pkg", spec := [], marker := none }],
       index := [{ name := "pkg", version := (9, 9), compatTargets := none, deps := [] }] }
     [{ platform := "x86_64-linux", pyVersion := (3, 10) }]
     [({ platform := "x86_64-linux", pyVersion := (3, 10) },
       [("pkg", { name := "pkg", version := (1, 0), compatTargets := none, deps := [] })])]
     { platform := "x86_64-linux", pyVersion := (3, 10) } "pkg"
     { name := "pkg", version := (1, 0), compatTargets := none, deps := [] }
     { name := "pkg", version := (1, 0), compatTargets := none, deps := [] }
     (by decide) (by decide) (by decide)⟩

/-- C7: for a name with no LocalOverride, the chosen candidate is a package
index candidate of that name, compatible with the Target, satisfying every
collected constraint, and of the highest such version; the selection is a
pure function of the session state, hence deterministic (resolver modelled
from the spec, newest-compatible-wins). -/
theorem newest_compatible_wins (s : ResolverState) (targets : List Target)
    (cl : List (Target × List (String × PyCandidate)))
    (t : Target) (n : String) (c : PyCandidate)
    (hres : resolve s targets = .ok cl)
    (hloc : localOverride s n = none)
    (hlook : closureLookup cl t n = some c) :
    (c ∈ s.index ∧ c.name = n ∧ candCompatible c t = true ∧
      satisfiesAll (finalConstr s t n) c.version = true) ∧
    (∀ c2 ∈ s.index, c2.name = n → candCompatible c2 t = true →
      satisfiesAll (finalConstr s t n) c2.version = true →
      versionLe c2.version c.version = true) := by
  have hsel := closureLookup_chosen s targets cl t n c hres hlook
  unfold selectFor at hsel
  rw [hloc] at hsel
  have hmem := maxByVersion_some_mem _ _ hsel
  have hge := maxByVersion_some_ge _ _ hsel
  obtain ⟨hidx, hp⟩ := List.mem_filter.mp hmem
  simp only [Bool.and_eq_true, beq_iff_eq] at hp
  refine ⟨⟨hidx, hp.1.1, hp.1.2, hp.2⟩, fun c2 hc2 hname hcompat hsat => ?_⟩
  refine hge c2 (List.mem_filter.mpr ⟨hc2, ?_⟩)
  simp only [Bool.and_eq_true, beq_iff_eq]
  exact ⟨⟨hname, hcompat⟩, hsat⟩

theorem newest_compatible_wins_witness :
    resolve
      { locals := [],
        reqs := [{ name := "pkg", spec := [.ge (1, 0), .lt (2, 0)], marker := none }],
        index :=
          [{ name := "pkg", version := (1, 0), compatTargets := none, deps := [] },
           { name := "pkg", version := (1, 2), compatTargets := none, deps := [] },
           { name := "pkg", version := (1, 3), compatTargets := none, deps := [] }] }
      [{ platform := "x86_64-linux", pyVersion := (3, 10) }]
      = .ok [({ platform := "x86_64-linux", pyVersion := (3, 10) },
              [("pkg", { name := "pkg", version := (1, 3), compatTargets := none,
                         deps := [] })])] ∧
    (∀ c2 ∈
        [({ name := "pkg", version := (1, 0), compatTargets := none, deps := [] } : PyCandidate),
         { name := "pkg", version := (1, 2), compatTargets := none, deps := [] },
         { name := "pkg", version := (1, 3), compatTargets := none, deps := [] }],
      c2.name = "pkg" →
      candCompatible c2 { platform := "x86_64-linux", pyVersion := (3, 10) } = true →
      satisfiesAll
        (finalConstr
          { locals := [],
            reqs := [{ name := "pkg", spec := [.ge (1, 0), .lt (2, 0)], marker := none }],
            index :=
              [{ name := "pkg", version := (1, 0), compatTargets := none, deps := [] },
               { name := "pkg", version := (1, 2), compatTargets := none, deps := [] },
               { name := "pkg", version := (1, 3), compatTargets := none, deps := [] }] }
          { platform := "x86_64-linux", pyVersion := (3, 10) } "pkg") c2.version = true →
      versionLe c2.version (1, 3) = true) :=
  ⟨by decide,
   (newest_compatible_wins
     { locals := [],
       reqs := [{ name := "pkg", spec := [.ge (1, 0), .lt (2, 0)], marker := none }],
       index :=
         [{ name := "pkg", version := (1, 0), compatTargets := none, deps := [] },
          { name := "pkg", version := (1, 2), compatTargets := none, deps := [] },
          { name := "pkg", version := (1, 3), compatTargets := none, deps := [] }] }
     [{ platform := "x86_64-linux", pyVersion := (3, 10) }]
     [({ platform := "x86_64-linux", pyVersion := (3, 10) },
       [("pkg", { name := "pkg", version := (1, 3), compatTargets := none, deps := [] })])]
     { platform := "x86_64-linux", pyVersion := (3, 10) } "pkg"
     { name := "pkg", version := (1, 3), compatTargets := none, deps := [] }
     (by decide) (by decide) (by decide)).2⟩

theorem depUpdate_required_mono (st : TState) (r : PyReq) (n : String)
    (h : n ∈ st.required) : n ∈ (depUpdate st r).required := by
  unfold depUpdate
  dsimp only
  split
  · exact h
  · exact List.mem_cons_of_mem _ h

theorem depUpdate_constr_mono (st : TState) (r : PyReq) (m : String)
    (a : VersionAtom) (h : a ∈ st.constr m) : a ∈ (depUpdate st r).constr m := by
  unfold depUpdate
  dsimp only
  split
  · exact List.mem_append_left _ h
  · exact h

theorem foldl_depUpdate_required_mono (deps : List PyReq) :
    ∀ (st : TState) (n : String), n ∈ st.required →
      n ∈ (deps.foldl depUpdate st).required := by
  induction deps with
  | nil => intro st n h; exact h
  | cons r rest ih =>
    intro st n h
    exact ih (depUpdate st r) n (depUpdate_required_mono st r n h)

theorem foldl_depUpdate_constr_mono (deps : List PyReq) :
    ∀ (st : TState) (m : String) (a : VersionAtom), a ∈ st.constr m →
      a ∈ (deps.foldl depUpdate st).constr m := by
  induction deps with
  | nil => intro st m a h; exact h
  | cons r rest ih =>
    intro st m a h
    exact ih (depUpdate st r) m a (depUpdate_constr_mono st r m a h)

theorem runRounds_required_mono (s : ResolverState) (t : Target) (k : Nat)
    (n : String) (h : n ∈ (initTState s t).required) :
    n ∈ (runRounds s t k).required := by
  induction k with
  | zero => exact h
  | succ j ih => exact foldl_depUpdate_required_mono _ _ n ih

theorem runRounds_constr_mono (s : ResolverState) (t : Target) (k : Nat)
    (m : String) (a : VersionAtom) (h : a ∈ (initTState s t).constr m) :
    a ∈ (runRounds s t k).constr m := by
  induction k with
  | zero => exact h
  | succ j ih => exact foldl_depUpdate_constr_mono _ _ m a ih

theorem satisfiesAll_subset (c1 c2 : List VersionAtom) (v : Version)
    (hsub : ∀ a ∈ c1, a ∈ c2) (h : satisfiesAll c2 v = true) :
    satisfiesAll c1 v = true := by
  rw [satisfiesAll, List.all_eq_true] at *
  exact fun a ha => h a (hsub a ha)

/-- C6: when the intersection of the constraints placed on some required
package name admits no candidate on some Target, `resolve` fails with an
`UnsatisfiableConstraintError` naming that package, and no partial Closure
is returned — `resolve` is all-or-nothing (resolver modelled from the
spec, §4.1 step 4 and §7). -/
theorem unsatisfiable_reported_all_or_nothing (s : ResolverState)
    (targets : List Target) (t : Target) (r : PyReq)
    (ht : t ∈ targets) (hr : r ∈ s.reqs) (happ : reqApplies r t = true)
    (hloc : localOverride s r.name = none)
    (hunsat : ∀ c ∈ s.index, c.name = r.name → candCompatible c t = true →
      satisfiesAll (topConstr s t r.name) c.version = false) :
    (∃ fs, resolve s targets = .error (.unsatisfiableConstraint fs) ∧ r.name ∈ fs) ∧
    (∀ cl, resolve s targets ≠ .ok cl) := by
  have hreq0 : r.name ∈ (initTState s t).required := by
    unfold initTState
    exact List.mem_dedup.mpr
      (List.mem_map.mpr ⟨r, List.mem_filter.mpr ⟨hr, happ⟩, rfl⟩)
  have hreqF : r.name ∈ (finalTState s t).required :=
    runRounds_required_mono s t (roundBound s) r.name hreq0
  have hconstr : ∀ a ∈ topConstr s t r.name, a ∈ finalConstr s t r.name :=
    fun a ha => runRounds_constr_mono s t (roundBound s) r.name a ha
  have hsel : selectFor s t r.name (finalConstr s t r.name) = none := by
    unfold selectFor
    rw [hloc]
    have hnil : s.index.filter
        (fun c => c.name == r.name && candCompatible c t &&
          satisfiesAll (finalConstr s t r.name) c.version) = [] := by
      rw [List.filter_eq_nil_iff]
      intro c hc hp
      simp only [Bool.and_eq_true, beq_iff_eq] at hp
      have hfalse := hunsat c hc hp.1.1 hp.1.2
      have htrue := satisfiesAll_subset _ _ _ hconstr hp.2
      rw [htrue] at hfalse
      cases hfalse
    rw [hnil]
    rfl
  have hnames : r.name ∈ allNames s := by
    unfold allNames
    exact List.mem_dedup.mpr
      (List.mem_append_left _ (List.mem_append_left _ (List.mem_map.mpr ⟨r, hr, rfl⟩)))
  have hfail : r.name ∈ (resolveTarget s t).1 := by
    unfold resolveTarget requiredNames
    refine List.mem_filter.mpr ⟨List.mem_filter.mpr ⟨hnames, ?_⟩, ?_⟩
    · exact List.elem_eq_true_of_mem hreqF
    · rw [hsel]
      rfl
  have hflat : r.name ∈ (targets.map (fun t => (resolveTarget s t).1)).flatten :=
    List.mem_flatten.mpr ⟨(resolveTarget s t).1, List.mem_map.mpr ⟨t, ht, rfl⟩, hfail⟩
  have hne : (targets.map (fun t => (resolveTarget s t).1)).flatten ≠ [] :=
    List.ne_nil_of_mem hflat
  have hempty : ((targets.map (fun t => (resolveTarget s t).1)).flatten).isEmpty = false := by
    cases hcase : (targets.map (fun t => (resolveTarget s t).1)).flatten with
    | nil => exact absurd hcase hne
    | cons x xs => rfl
  have hmain : resolve s targets
      = .error (.unsatisfiableConstraint
          (((targets.map (fun t => (resolveTarget s t).1)).flatten).dedup)) := by
    unfold resolve
    rw [hempty]
    rfl
  refine ⟨⟨_, hmain, List.mem_dedup.mpr hflat⟩, fun cl hcl => ?_⟩
  rw [hmain] at hcl
  cases hcl

theorem unsatisfiable_reported_all_or_nothing_witness :
    ((∃ fs, resolve
        { locals := [],
          reqs := [{ name := "pkg", spec := [.ge (2, 0)], marker := none },
                   { name := "pkg", spec := [.lt (2, 0)], marker := none }],
          index :=
            [{ name := "pkg", version := (1, 0), compatTargets := none, deps := [] },
             { name := "pkg", version := (2, 5), compatTargets := none, deps := [] }] }
        [{ platform := "x86_64-linux", pyVersion := (3, 10) }]
        = .error (.unsatisfiableConstraint fs) ∧ "pkg" ∈ fs) ∧
     (∀ cl, resolve
        { locals := [],
          reqs := [{ name := "pkg", spec := [.ge (2, 0)], marker := none },
                   { name := "pkg", spec := [.lt (2, 0)], marker := none }],
          index :=
            [{ name := "pkg", version := (1, 0), compatTargets := none, deps := [] },
             { name := "pkg", version := (2, 5), compatTargets := none, deps := [] }] }
        [{ platform := "x86_64-linux", pyVersion := (3, 10) }]
        ≠ .ok cl)) :=
  unsatisfiable_reported_all_or_nothing
    { locals := [],
      reqs := [{ name := "pkg", spec := [.ge (2, 0)], marker := none },
               { name := "pkg", spec := [.lt (2, 0)], marker := none }],
      index :=
        [{ name := "pkg", version := (1, 0), compatTargets := none, deps := [] },
         { name := "pkg", version := (2, 5), compatTargets := none, deps := [] }] }
    [{ platform := "x86_64-linux", pyVersion := (3, 10) }]
    { platform := "x86_64-linux", pyVersion := (3, 10) }
    { name := "pkg", spec := [.ge (2, 0)], marker := none }
    (by decide) (by decide) (by decide) (by decide) (by decide)

end E3
